import Mathlib

/-!
Shallow embedding of the deployment utility core of this repository
(package `deployment`, plus `pkg/apis/extensions/helpers.go`), together with
theorems checking the natural-language specification against it.

Go `map[string]string` values (label and annotation maps) are embedded as
association lists with Go map-assignment (`upsert`) and map-indexing
(`lookupKey`) semantics.  Go `time.Time` is embedded as a wrapped integer
number of seconds whose designated zero value plays the role of Go's zero
`time.Time`.  Go pairs `(T, error)` are embedded as `Except String T` when
the caller only branches on `err != nil`, and as explicit products with an
`Option String` error component when the specification talks about the
value returned alongside an error.  Calls to `time.Now()` are embedded as
an explicit `now` parameter.
-/

namespace K8s

/-- A Go `map[string]string`, embedded as an association list. -/
abbrev Labels := List (String × String)

/-- Go map indexing `m[key]` (the `value, ok` form): first binding wins. -/
def lookupKey {α : Type} : List (String × α) → String → Option α
  | [], _ => none
  | (k, v) :: rest, key => if k = key then some v else lookupKey rest key

/-- Go map assignment `m[key] = v`: replace the binding if present, else add it. -/
def upsert {α : Type} (key : String) (v : α) : List (String × α) → List (String × α)
  | [] => [(key, v)]
  | (k, w) :: rest => if k = key then (key, v) :: rest else (k, w) :: upsert key v rest

/-- Embedding of Go `time.Time` (a point in time, in whole seconds); the
designated zero value stands for Go's zero `time.Time`. -/
structure Time where
  seconds : Int
deriving DecidableEq, Repr

/-- Go `Time.IsZero`. -/
def Time.IsZero (t : Time) : Bool := decide (t.seconds = 0)

/-- Go `Time.Add` of a duration of `secs` seconds. -/
def Time.Add (t : Time) (secs : Int) : Time := ⟨t.seconds + secs⟩

/-- Go `Time.Before` (strict). -/
def Time.Before (t u : Time) : Bool := decide (t.seconds < u.seconds)

/-- The fields of `api.ObjectMeta` this core reads. -/
structure ObjectMeta where
  name : String := ""
  namespace_ : String := ""
  labels : Labels := []
  annotations : List (String × String) := []
  creationTimestamp : Time := ⟨0⟩
deriving DecidableEq, Repr

/-- `api.PodSpec`, kept abstract up to the content relevant to deep equality. -/
structure PodSpec where
  containers : List String := []
deriving DecidableEq, Repr

/-- `api.PodTemplateSpec`. -/
structure PodTemplateSpec where
  objectMeta : ObjectMeta := {}
  spec : PodSpec := {}
deriving DecidableEq, Repr

/-- `api.PodConditionType` (only `PodReady` matters to this core; a second
constructor keeps inequality of condition types meaningful). -/
inductive PodConditionType where
  | PodReady
  | PodScheduled
deriving DecidableEq, Repr

/-- `api.ConditionStatus`. -/
inductive ConditionStatus where
  | ConditionTrue
  | ConditionFalse
  | ConditionUnknown
deriving DecidableEq, Repr

/-- `api.PodCondition`. -/
structure PodCondition where
  type_ : PodConditionType
  status : ConditionStatus
  lastTransitionTime : Time := ⟨0⟩
deriving DecidableEq, Repr

/-- `api.PodStatus` (the condition list). -/
structure PodStatus where
  conditions : List PodCondition := []
deriving DecidableEq, Repr

/-- `api.Pod`. -/
structure Pod where
  objectMeta : ObjectMeta := {}
  status : PodStatus := {}
deriving DecidableEq, Repr

/-- `api.PodList`. -/
structure PodList where
  items : List Pod := []
deriving DecidableEq, Repr

/-- `api.ReplicationControllerSpec`: the template is a pointer in the source,
hence optional here. -/
structure ReplicationControllerSpec where
  replicas : Int := 0
  selector : Labels := []
  template : Option PodTemplateSpec := none
deriving DecidableEq, Repr

/-- `api.ReplicationController`. -/
structure ReplicationController where
  objectMeta : ObjectMeta := {}
  spec : ReplicationControllerSpec := {}
deriving DecidableEq, Repr

/-- `extensions.DeploymentSpec` (the fields this core reads). -/
structure DeploymentSpec where
  replicas : Int := 0
  selector : Labels := []
  template : PodTemplateSpec := {}
  uniqueLabelKey : String := ""
deriving DecidableEq, Repr

/-- `extensions.DeploymentStatus` (the fields this core reads). -/
structure DeploymentStatus where
  replicas : Int := 0
deriving DecidableEq, Repr

/-- `extensions.Deployment`. -/
structure Deployment where
  objectMeta : ObjectMeta := {}
  spec : DeploymentSpec := {}
  status : DeploymentStatus := {}
deriving DecidableEq, Repr

/-- `api.ListOptions` (only the label selector is used). -/
structure ListOptions where
  labelSelector : Labels := []
deriving DecidableEq, Repr

/-- `labels.SelectorFromSet`: a label set used as an exact-match selector. -/
def SelectorFromSet (s : Labels) : Labels := s

/-- `Selector.Matches` for a selector built by `SelectorFromSet`: every
`key=value` requirement of the selector holds in the given label set. -/
def selMatches (sel : Labels) (podLabels : Labels) : Bool :=
  sel.all fun kv => decide (lookupKey podLabels kv.1 = some kv.2)

/-- Modelled from the spec: the deterministic content fingerprint of a pod
template (`podutil.GetPodTemplateSpecHash` of `pkg/util/pod` is not among the
source files).  The spec requires only an opaque deterministic string derived
from the template's content, which any function of the template provides. -/
def GetPodTemplateSpecHash (template : PodTemplateSpec) : String :=
  template.spec.containers.foldl (fun acc c => acc ++ c ++ ",")
    (template.objectMeta.labels.foldl
      (fun acc kv => acc ++ kv.1 ++ "=" ++ kv.2 ++ ";")
      ("hash:" ++ template.objectMeta.name ++ "/"))

/-- Modelled from the spec: return a copy of the label map with the value
written under the given key — original labels preserved, a collision on the
key overwritten — the unique label key being optional, an absent (empty) key
leaves the labels untouched (`labelsutil.CloneAndAddLabel` of
`pkg/util/labels` is not among the source files). -/
def CloneAndAddLabel (labels : Labels) (labelKey labelValue : String) : Labels :=
  if labelKey = "" then labels else upsert labelKey labelValue labels

/-- `GetNewRCTemplate`: the desired fingerprinted pod template of a
deployment.  The hash is computed on the copied template before the label is
stamped, exactly as in the source. -/
def GetNewRCTemplate (deployment : Deployment) : PodTemplateSpec :=
  let newRCTemplate : PodTemplateSpec :=
    { objectMeta := deployment.spec.template.objectMeta
      spec := deployment.spec.template.spec }
  { newRCTemplate with
      objectMeta := { newRCTemplate.objectMeta with
        labels := CloneAndAddLabel deployment.spec.template.objectMeta.labels
          deployment.spec.uniqueLabelKey (GetPodTemplateSpecHash newRCTemplate) } }

/-- `GetNewRCFromList`: first listed controller whose template is deep-equal
to the desired fingerprinted template; `none` when there is none. -/
def GetNewRCFromList (deployment : Deployment)
    (getRcList : String → ListOptions → Except String (List ReplicationController)) :
    Except String (Option ReplicationController) :=
  match getRcList deployment.objectMeta.namespace_
      { labelSelector := SelectorFromSet deployment.spec.selector } with
  | Except.error e => Except.error ("error listing replication controllers: " ++ e)
  | Except.ok rcList =>
      Except.ok (rcList.find? fun rc =>
        decide (rc.spec.template = some (GetNewRCTemplate deployment)))

/-- A Go `map[string]api.ReplicationController`. -/
abbrev RCMap := List (String × ReplicationController)

/-- The body of the inner controller loop of `GetOldRCsFromLists`: skip the
new controller, record every other controller in `allOldRCs`, and also in
`oldRCs` when its selector matches the current pod's labels. -/
def processRC (newRCTemplate : PodTemplateSpec) (podLabels : Labels)
    (acc : RCMap × RCMap) (rc : ReplicationController) : RCMap × RCMap :=
  if rc.spec.template = some newRCTemplate then acc
  else
    ((if selMatches (SelectorFromSet rc.spec.selector) podLabels then
        upsert rc.objectMeta.name rc acc.1
      else acc.1),
     upsert rc.objectMeta.name rc acc.2)

/-- The nested pod/controller loops of `GetOldRCsFromLists` (the controller
loop is nested inside the pod loop, exactly as in the source). -/
def classifyPods (newRCTemplate : PodTemplateSpec)
    (rcList : List ReplicationController) (pods : List Pod)
    (acc : RCMap × RCMap) : RCMap × RCMap :=
  pods.foldl
    (fun a pod => rcList.foldl (processRC newRCTemplate pod.objectMeta.labels) a) acc

/-- The values of a Go map, as extracted by a `for key := range m` loop. -/
def mapValues {α : Type} (m : List (String × α)) : List α := m.map Prod.snd

/-- `GetOldRCsFromLists`: the two result slices are absent (`none`) exactly
when the source returns `nil, nil, err`. -/
def GetOldRCsFromLists (deployment : Deployment)
    (getPodList : String → ListOptions → Except String PodList)
    (getRcList : String → ListOptions → Except String (List ReplicationController)) :
    Option (List ReplicationController) × Option (List ReplicationController) × Option String :=
  match getPodList deployment.objectMeta.namespace_
      { labelSelector := SelectorFromSet deployment.spec.selector } with
  | Except.error e => (none, none, some ("error listing pods: " ++ e))
  | Except.ok podList =>
    match getRcList deployment.objectMeta.namespace_
        { labelSelector := SelectorFromSet deployment.spec.selector } with
    | Except.error e => (none, none, some ("error listing replication controllers: " ++ e))
    | Except.ok rcList =>
      let maps := classifyPods (GetNewRCTemplate deployment) rcList podList.items ([], [])
      (some (mapValues maps.1), some (mapValues maps.2), none)

/-- Modelled from the spec: the pod's overall condition state is ready in the
Kubernetes sense — a Ready-type condition with status True is present
(`api.IsPodReady` is not among the source files). -/
def IsPodReady (pod : Pod) : Bool :=
  pod.status.conditions.any fun c =>
    decide (c.type_ = PodConditionType.PodReady) &&
      decide (c.status = ConditionStatus.ConditionTrue)

/-- One iteration of the condition loop of `getReadyPodsCount`: the condition
is a Ready-type condition and either `minReadySeconds <= 0` or the transition
timestamp is set and `lastTransitionTime + minReadySeconds` is strictly
before `now`. -/
def readyConditionPassed (minReadySeconds : Int) (now : Time) (c : PodCondition) : Bool :=
  decide (c.type_ = PodConditionType.PodReady) &&
    (decide (minReadySeconds ≤ 0) ||
      (!c.lastTransitionTime.IsZero && (c.lastTransitionTime.Add minReadySeconds).Before now))

/-- `getReadyPodsCount` (the source's `time.Now()` is the `now` parameter;
the `break` after the first valid condition is the `List.any`). -/
def getReadyPodsCount (pods : List Pod) (minReadySeconds : Int) (now : Time) : Nat :=
  pods.foldl
    (fun readyPodCount pod =>
      if IsPodReady pod && pod.status.conditions.any (readyConditionPassed minReadySeconds now)
      then readyPodCount + 1
      else readyPodCount)
    0

/-- The accumulating loop of `getPodsForRCs`: on a listing failure it returns
the pods accumulated so far together with the error, as the source does. -/
def getPodsForRCsAux (listPods : String → ListOptions → Except String PodList) :
    List ReplicationController → List Pod → List Pod × Option String
  | [], allPods => (allPods, none)
  | rc :: rest, allPods =>
    match listPods rc.objectMeta.namespace_
        { labelSelector := SelectorFromSet rc.spec.selector } with
    | Except.error e => (allPods, some ("error listing pods: " ++ e))
    | Except.ok podList => getPodsForRCsAux listPods rest (allPods ++ podList.items)

/-- `getPodsForRCs`. -/
def getPodsForRCs (listPods : String → ListOptions → Except String PodList)
    (rcs : List ReplicationController) : List Pod × Option String :=
  getPodsForRCsAux listPods rcs []

/-- `GetAvailablePodsForRCs`: on a listing failure it discards the
accumulated pods and returns the count `0` with the error. -/
def GetAvailablePodsForRCs (listPods : String → ListOptions → Except String PodList)
    (rcs : List ReplicationController) (minReadySeconds : Int) (now : Time) :
    Nat × Option String :=
  match getPodsForRCs listPods rcs with
  | (_, some e) => (0, some e)
  | (allPods, none) => (getReadyPodsCount allPods minReadySeconds now, none)

/-- The reserved revision annotation key. -/
def RevisionAnnotation : String := "deployment.kubernetes.io/revision"

/-- `strconv.ParseInt(s, 10, 64)`: an optional sign followed by at least one
decimal digit, the value required to fit a signed 64-bit integer. -/
def ParseInt64 (s : String) : Except String Int :=
  let signDigits : Bool × List Char :=
    match s.toList with
    | '-' :: rest => (true, rest)
    | '+' :: rest => (false, rest)
    | rest => (false, rest)
  if signDigits.2.isEmpty then
    Except.error ("strconv.ParseInt: parsing " ++ s ++ ": invalid syntax")
  else if !signDigits.2.all Char.isDigit then
    Except.error ("strconv.ParseInt: parsing " ++ s ++ ": invalid syntax")
  else
    let magnitude : Nat := signDigits.2.foldl (fun a c => a * 10 + (c.toNat - 48)) 0
    let n : Int := if signDigits.1 then -(magnitude : Int) else (magnitude : Int)
    if n < -(2 ^ 63) then
      Except.error ("strconv.ParseInt: parsing " ++ s ++ ": value out of range")
    else if (2 ^ 63 - 1 : Int) < n then
      Except.error ("strconv.ParseInt: parsing " ++ s ++ ": value out of range")
    else Except.ok n

/-- `Revision`: the revision number recorded on a controller's annotations. -/
def Revision (rc : ReplicationController) : Except String Int :=
  match lookupKey rc.objectMeta.annotations RevisionAnnotation with
  | none => Except.ok 0
  | some v => ParseInt64 v

/-- `extensions.ScaleSpec`. -/
structure ScaleSpec where
  replicas : Int := 0
deriving DecidableEq, Repr

/-- `extensions.ScaleStatus`. -/
structure ScaleStatus where
  replicas : Int := 0
  selector : Labels := []
deriving DecidableEq, Repr

/-- `extensions.Scale`. -/
structure Scale where
  objectMeta : ObjectMeta := {}
  spec : ScaleSpec := {}
  status : ScaleStatus := {}
deriving DecidableEq, Repr

/-- `ScaleFromDeployment` (`pkg/apis/extensions/helpers.go`). -/
def ScaleFromDeployment (deployment : Deployment) : Scale :=
  { objectMeta :=
      { name := deployment.objectMeta.name
        namespace_ := deployment.objectMeta.namespace_
        creationTimestamp := deployment.objectMeta.creationTimestamp }
    spec := { replicas := deployment.spec.replicas }
    status :=
      { replicas := deployment.status.replicas
        selector := deployment.spec.selector } }

/-- `ScaleFromDeployment` with the deployment state threaded explicitly: the
source reads through the pointer and never writes, so the state component is
returned unchanged. -/
def ScaleFromDeploymentS (deployment : Deployment) : Deployment × Scale :=
  (deployment, ScaleFromDeployment deployment)

/-! ### Generic lemmas about the Go-map embedding -/

/-- The key list of a Go map. -/
def keys {α : Type} (m : List (String × α)) : List String := m.map Prod.fst

theorem mem_upsert {α : Type} {key : String} {v : α} {kv : String × α} :
    ∀ {m : List (String × α)}, kv ∈ upsert key v m → kv = (key, v) ∨ kv ∈ m := by
  intro m
  induction m with
  | nil =>
      intro h
      simp [upsert] at h
      exact Or.inl h
  | cons hd tl ih =>
      obtain ⟨k, w⟩ := hd
      intro h
      by_cases hk : k = key
      · simp [upsert, hk] at h
        rcases h with h | h
        · exact Or.inl (by simp [h])
        · exact Or.inr (List.mem_cons_of_mem _ h)
      · simp [upsert, hk] at h
        rcases h with h | h
        · exact Or.inr (by simp [h])
        · rcases ih h with h' | h'
          · exact Or.inl h'
          · exact Or.inr (List.mem_cons_of_mem _ h')

theorem keys_upsert {α : Type} (key : String) (v : α) :
    ∀ m : List (String × α),
      keys (upsert key v m) = if key ∈ keys m then keys m else keys m ++ [key] := by
  intro m
  induction m with
  | nil => simp [upsert, keys]
  | cons hd tl ih =>
      obtain ⟨k, w⟩ := hd
      by_cases hk : k = key
      · subst hk
        simp [upsert, keys]
      · have hk' : ¬ key = k := fun h => hk h.symm
        simp only [upsert]
        rw [if_neg hk]
        simp only [keys, List.map_cons] at ih ⊢
        rw [ih]
        by_cases hmem : key ∈ List.map Prod.fst tl
        · simp [hmem, hk']
        · simp [hmem, hk']

theorem mem_keys_upsert {α : Type} {key k : String} {v : α} {m : List (String × α)} :
    k ∈ keys (upsert key v m) ↔ k = key ∨ k ∈ keys m := by
  rw [keys_upsert]
  by_cases hmem : key ∈ keys m
  · rw [if_pos hmem]
    constructor
    · exact Or.inr
    · rintro (rfl | h)
      · exact hmem
      · exact h
  · rw [if_neg hmem]
    simp only [List.mem_append, List.mem_singleton]
    tauto

theorem nodup_keys_upsert {α : Type} (key : String) (v : α) {m : List (String × α)}
    (h : (keys m).Nodup) : (keys (upsert key v m)).Nodup := by
  rw [keys_upsert]
  by_cases hmem : key ∈ keys m
  · simpa [hmem] using h
  · simp [hmem, List.nodup_append, h]

theorem mem_keys_exists {α : Type} {k : String} {m : List (String × α)}
    (h : k ∈ keys m) : ∃ v, (k, v) ∈ m := by
  obtain ⟨kv, hkv, hfst⟩ := List.mem_map.1 h
  obtain ⟨a, b⟩ := kv
  exact ⟨b, by simpa [← hfst] using hkv⟩

theorem mem_keys_of_mem {α : Type} {kv : String × α} {m : List (String × α)}
    (h : kv ∈ m) : kv.1 ∈ keys m :=
  List.mem_map.2 ⟨kv, h, rfl⟩

theorem lookupKey_upsert_ne {α : Type} {k key : String} (hne : ¬ k = key) (v : α) :
    ∀ m : List (String × α), lookupKey (upsert key v m) k = lookupKey m k := by
  have hne' : ¬ key = k := fun h => hne h.symm
  intro m
  induction m with
  | nil => simp [upsert, lookupKey, hne']
  | cons hd tl ih =>
      obtain ⟨k', w⟩ := hd
      by_cases hk : k' = key
      · subst hk
        simp [upsert, lookupKey, hne']
      · simp only [upsert, hk, if_neg, lookupKey]
        by_cases hkk : k' = k
        · simp [hkk]
        · simp [hkk, ih]

/-- Counting fold of the readiness loop, as a filter length. -/
theorem foldl_if_count {α : Type} (p : α → Bool) (l : List α) :
    ∀ n : Nat, l.foldl (fun c a => if p a then c + 1 else c) n = n + (l.filter p).length := by
  induction l with
  | nil => intro n; simp
  | cons a l ih =>
      intro n
      by_cases h : p a
      · simp [List.foldl_cons, h, ih, List.filter_cons]
        omega
      · simp [List.foldl_cons, h, ih, List.filter_cons]

theorem getReadyPodsCount_eq_filter (pods : List Pod) (minReadySeconds : Int) (now : Time) :
    getReadyPodsCount pods minReadySeconds now =
      (pods.filter fun pod =>
        IsPodReady pod &&
          pod.status.conditions.any (readyConditionPassed minReadySeconds now)).length := by
  unfold getReadyPodsCount
  rw [foldl_if_count
    (fun pod => IsPodReady pod &&
      pod.status.conditions.any (readyConditionPassed minReadySeconds now)) pods 0]
  simp

/-! ### Test fixtures for witnesses and counterexamples -/

/-- A concrete deployment with selector `app=x`. -/
def exampleDeployment : Deployment :=
  { objectMeta := { name := "d", namespace_ := "ns" }
    spec := { replicas := 3
              selector := [("app", "x")]
              template := { objectMeta := { labels := [("app", "x")] }
                            spec := { containers := ["new"] } }
              uniqueLabelKey := "deployment.kubernetes.io/podTemplateHash" } }

/-- A concrete controller whose template differs from the desired
fingerprinted template of `exampleDeployment`. -/
def exampleOldRC : ReplicationController :=
  { objectMeta := { name := "rc-old", namespace_ := "ns", labels := [("app", "x")] }
    spec := { replicas := 2
              selector := [("app", "x")]
              template := some { objectMeta := { labels := [("app", "x")] }
                                 spec := { containers := ["old"] } } } }

/-- A controller whose template is exactly the desired fingerprinted template
of `exampleDeployment`. -/
def exampleNewRC : ReplicationController :=
  { objectMeta := { name := "rc-new", namespace_ := "ns", labels := [("app", "x")] }
    spec := { replicas := 3
              selector := [("app", "x")]
              template := some (GetNewRCTemplate exampleDeployment) } }

/-- A pod labeled `app=x` with no conditions. -/
def examplePod : Pod := { objectMeta := { namespace_ := "ns", labels := [("app", "x")] } }

/-- A pod whose single condition is Ready/True with the zero transition
timestamp. -/
def podZeroTs : Pod :=
  { objectMeta := { labels := [("app", "x")] }
    status := { conditions := [{ type_ := PodConditionType.PodReady
                                 status := ConditionStatus.ConditionTrue
                                 lastTransitionTime := ⟨0⟩ }] } }

/-- A pod whose single condition is Ready/True with transition timestamp `t`. -/
def mkReadyPod (t : Int) : Pod :=
  { status := { conditions := [{ type_ := PodConditionType.PodReady
                                 status := ConditionStatus.ConditionTrue
                                 lastTransitionTime := ⟨t⟩ }] } }

/-! ### Claims -/

/-- Claim C1 (code bug): `GetOldRCsFromLists` iterates the candidate
controllers inside the loop over listed pods, so when the pod listing is
empty every old candidate is dropped from `old_all`, although the listed
controller is a candidate whose template differs from the desired
fingerprinted template.  This contradicts the function's own documentation,
which promises that the second returned set includes all old controllers. -/
theorem classify_empty_pod_listing_drops_all_old :
    GetOldRCsFromLists exampleDeployment (fun _ _ => Except.ok { items := [] })
        (fun _ _ => Except.ok [exampleOldRC]) = (some [], some [], none) ∧
    ¬ exampleOldRC.spec.template = some (GetNewRCTemplate exampleDeployment) := by
  exact ⟨rfl, by decide⟩

/-- Claim C4: `Revision` returns `0` with no error when the revision
annotation key is absent, hands a present value to the base-10 64-bit
integer parser (returning the parsed integer on success and an error on
failure), and concretely `"7"` parses to `7` while `"abc"` is an error. -/
theorem revision_contract (rc : ReplicationController) :
    (lookupKey rc.objectMeta.annotations RevisionAnnotation = none →
      Revision rc = Except.ok 0) ∧
    (∀ v, lookupKey rc.objectMeta.annotations RevisionAnnotation = some v →
      Revision rc = ParseInt64 v) ∧
    (∀ v n, lookupKey rc.objectMeta.annotations RevisionAnnotation = some v →
      ParseInt64 v = Except.ok n → Revision rc = Except.ok n) ∧
    (∀ v e, lookupKey rc.objectMeta.annotations RevisionAnnotation = some v →
      ParseInt64 v = Except.error e → Revision rc = Except.error e) ∧
    ParseInt64 "7" = Except.ok 7 ∧
    (∃ e, ParseInt64 "abc" = Except.error e) := by
  refine ⟨fun h => ?_, fun v h => ?_, fun v n h hp => ?_, fun v e h hp => ?_, rfl,
    ⟨"strconv.ParseInt: parsing abc: invalid syntax", rfl⟩⟩
  · simp [Revision, h]
  · simp [Revision, h]
  · simp [Revision, h, hp]
  · simp [Revision, h, hp]

/-- Witness for C4 at concrete controllers: annotation `"7"` yields `7`, a
missing annotation yields `0`, annotation `"abc"` yields an error. -/
theorem revision_contract_witness :
    Revision { exampleOldRC with objectMeta := { exampleOldRC.objectMeta with
        annotations := [("deployment.kubernetes.io/revision", "7")] } } = Except.ok 7 ∧
    Revision exampleOldRC = Except.ok 0 ∧
    Revision { exampleOldRC with objectMeta := { exampleOldRC.objectMeta with
        annotations := [("deployment.kubernetes.io/revision", "abc")] } } =
      Except.error "strconv.ParseInt: parsing abc: invalid syntax" := by
  refine ⟨?_, ?_, ?_⟩
  · exact (revision_contract _).2.2.1 "7" 7 rfl rfl
  · exact (revision_contract exampleOldRC).1 rfl
  · exact (revision_contract _).2.2.2.1 "abc" _ rfl rfl

/-- Claim C10: `ScaleFromDeployment` copies the deployment's name, namespace
and creation timestamp into the scale's object metadata, its desired replica
count into the scale spec, and its status replicas and spec selector into the
scale status, leaving the input deployment unchanged. -/
theorem scale_from_deployment_fields (d : Deployment) :
    (ScaleFromDeployment d).objectMeta.name = d.objectMeta.name ∧
    (ScaleFromDeployment d).objectMeta.namespace_ = d.objectMeta.namespace_ ∧
    (ScaleFromDeployment d).objectMeta.creationTimestamp = d.objectMeta.creationTimestamp ∧
    (ScaleFromDeployment d).spec.replicas = d.spec.replicas ∧
    (ScaleFromDeployment d).status.replicas = d.status.replicas ∧
    (ScaleFromDeployment d).status.selector = d.spec.selector ∧
    (ScaleFromDeploymentS d).1 = d :=
  ⟨rfl, rfl, rfl, rfl, rfl, rfl, rfl⟩

/-- Claim C2 (counterexample): a pod whose overall condition state is ready
and whose Ready condition carries the zero-value transition timestamp is NOT
counted by `getReadyPodsCount` when `min_ready_seconds = 30 > 0` — the
timing branch of the source requires the timestamp to be set. -/
theorem ready_zero_transition_cex :
    IsPodReady podZeroTs = true ∧
    (∃ c ∈ podZeroTs.status.conditions,
      c.type_ = PodConditionType.PodReady ∧ c.lastTransitionTime.IsZero = true) ∧
    getReadyPodsCount [podZeroTs] 30 ⟨1000⟩ = 0 := by
  refine ⟨rfl, ⟨⟨PodConditionType.PodReady, ConditionStatus.ConditionTrue, ⟨0⟩⟩,
    by decide⟩, rfl⟩

/-- Claim C2 (amended): a pod all of whose Ready-type conditions carry the
zero-value transition timestamp is not counted ready by `getReadyPodsCount`
whenever `min_ready_seconds > 0`, and with `min_ready_seconds = 0` the same
pod is counted whenever its overall condition state is ready. -/
theorem ready_zero_transition_requires_no_window (pod : Pod) (minReadySeconds : Int)
    (now : Time) (hm : 0 < minReadySeconds)
    (hz : ∀ c ∈ pod.status.conditions,
      c.type_ = PodConditionType.PodReady → c.lastTransitionTime = ⟨0⟩) :
    getReadyPodsCount [pod] minReadySeconds now = 0 ∧
    (IsPodReady pod = true → getReadyPodsCount [pod] 0 now = 1) := by
  constructor
  · rw [getReadyPodsCount_eq_filter]
    have hany : pod.status.conditions.any (readyConditionPassed minReadySeconds now) = false := by
      rw [List.any_eq_false]
      intro c hc
      unfold readyConditionPassed
      by_cases ht : c.type_ = PodConditionType.PodReady
      · have hz' := hz c hc ht
        simp [ht, hz', Time.IsZero, decide_eq_true_eq]
        omega
      · simp [ht]
    simp [hany]
  · intro hready
    rw [getReadyPodsCount_eq_filter]
    obtain ⟨c, hc, hcprop⟩ := List.any_eq_true.1 hready
    have hany : pod.status.conditions.any (readyConditionPassed 0 now) = true := by
      rw [List.any_eq_true]
      refine ⟨c, hc, ?_⟩
      simp only [Bool.and_eq_true, decide_eq_true_eq] at hcprop
      simp [readyConditionPassed, hcprop.1]
    simp [hready, hany]

/-- Witness for the amended C2 at the concrete zero-timestamp ready pod. -/
theorem ready_zero_transition_requires_no_window_witness :
    getReadyPodsCount [podZeroTs] 30 ⟨1000⟩ = 0 ∧
    getReadyPodsCount [podZeroTs] 0 ⟨1000⟩ = 1 := by
  have h := ready_zero_transition_requires_no_window podZeroTs 30 ⟨1000⟩ (by decide)
    (by decide)
  exact ⟨h.1, h.2 (by decide)⟩

/-- Claim C3 (counterexample): at the window boundary
`last_transition_time + min_ready_seconds = now` the source does not count
the pod (its comparison is strict `Before`), while the claim's
`last_transition_time + min_ready_seconds <= now` says it is counted. -/
theorem ready_window_boundary_cex :
    IsPodReady (mkReadyPod 70) = true ∧
    (70 : Int) + 30 ≤ 100 ∧
    getReadyPodsCount [mkReadyPod 70] 30 ⟨100⟩ = 0 := by
  exact ⟨rfl, by decide, rfl⟩

/-- Claim C3 (amended): for a ready pod with a set (non-zero) transition
timestamp `t` and `min_ready_seconds = m > 0`, `getReadyPodsCount` counts the
pod iff `t + m < now` strictly; in particular a pod with timestamp
`now - 1s` and `m = 30` is not counted, and the pod is counted once `now`
advances past `t + m`. -/
theorem ready_window_strict (t m now : Int) (ht : ¬ t = 0) (hm : 0 < m) :
    (getReadyPodsCount [mkReadyPod t] m ⟨now⟩ = if t + m < now then 1 else 0) ∧
    getReadyPodsCount [mkReadyPod (now - 1)] 30 ⟨now⟩ = 0 ∧
    (now ≤ t + m → getReadyPodsCount [mkReadyPod t] m ⟨now⟩ = 0) ∧
    (t + m < now → getReadyPodsCount [mkReadyPod t] m ⟨now⟩ = 1) := by
  have hmain : getReadyPodsCount [mkReadyPod t] m ⟨now⟩ = if t + m < now then 1 else 0 := by
    rw [getReadyPodsCount_eq_filter]
    have hnm : ¬ m ≤ 0 := by omega
    simp [mkReadyPod, IsPodReady, readyConditionPassed, Time.IsZero, Time.Add, Time.Before,
      ht, hnm, List.filter]
    by_cases hlt : t + m < now
    · simp [hlt]
    · simp [hlt]
  have hedge : getReadyPodsCount [mkReadyPod (now - 1)] 30 ⟨now⟩ = 0 := by
    rw [getReadyPodsCount_eq_filter]
    have h1 : ¬ (30 : Int) ≤ 0 := by omega
    have h2 : ¬ now - 1 + 30 < now := by omega
    simp [mkReadyPod, IsPodReady, readyConditionPassed, Time.IsZero, Time.Add, Time.Before,
      h1, h2, List.filter]
  refine ⟨hmain, hedge, fun h => ?_, fun h => ?_⟩
  · rw [hmain, if_neg (by omega)]
  · rw [hmain, if_pos h]

/-- Witness for the amended C3: timestamp `70`, window `30`: not counted at
`now = 100`, counted at `now = 101`. -/
theorem ready_window_strict_witness :
    getReadyPodsCount [mkReadyPod 70] 30 ⟨100⟩ = 0 ∧
    getReadyPodsCount [mkReadyPod 70] 30 ⟨101⟩ = 1 := by
  exact ⟨(ready_window_strict 70 30 100 (by decide) (by decide)).2.2.1 (by decide),
    (ready_window_strict 70 30 101 (by decide) (by decide)).2.2.2 (by decide)⟩

/-- Claim C7: with `min_ready_seconds <= 0` the timing check is skipped:
`getReadyPodsCount` counts exactly the pods whose overall condition state is
ready, and the aggregate over zero controllers is `0` with no error. -/
theorem ready_count_no_window (pods : List Pod) (minReadySeconds : Int) (now : Time)
    (hm : minReadySeconds ≤ 0) :
    getReadyPodsCount pods minReadySeconds now = (pods.filter fun p => IsPodReady p).length ∧
    (∀ (listPods : String → ListOptions → Except String PodList) (now' : Time),
      GetAvailablePodsForRCs listPods [] minReadySeconds now' = (0, none)) := by
  constructor
  · rw [getReadyPodsCount_eq_filter]
    congr 1
    apply List.filter_congr
    intro pod _
    by_cases hp : IsPodReady pod = true
    · obtain ⟨c, hc, hcprop⟩ := List.any_eq_true.1 hp
      have hany : pod.status.conditions.any (readyConditionPassed minReadySeconds now) = true := by
        rw [List.any_eq_true]
        refine ⟨c, hc, ?_⟩
        simp only [Bool.and_eq_true, decide_eq_true_eq] at hcprop
        simp [readyConditionPassed, hcprop.1, hm]
      simp [hp, hany]
    · simp [Bool.eq_false_iff.2 hp]
  · intro listPods now'
    rfl

/-- Witness for C7: two pods, one ready and one not, with `min_ready_seconds = 0`. -/
theorem ready_count_no_window_witness :
    getReadyPodsCount [podZeroTs, examplePod] 0 ⟨1000⟩ = 1 ∧
    GetAvailablePodsForRCs (fun _ _ => Except.error "unused") [] 0 ⟨1000⟩ = (0, none) := by
  have h := ready_count_no_window [podZeroTs, examplePod] 0 ⟨1000⟩ (by decide)
  refine ⟨?_, h.2 (fun _ _ => Except.error "unused") ⟨1000⟩⟩
  rw [h.1]
  decide

/-- Claim C6: a failing pod listing or controller listing makes
`GetOldRCsFromLists` return the propagated error with both result sets
absent, and a failing per-controller pod listing makes
`GetAvailablePodsForRCs` return count `0` with the error, discarding the
accumulated pods. -/
theorem listing_failure_no_partial_result (deployment : Deployment)
    (getPodList : String → ListOptions → Except String PodList)
    (getRcList : String → ListOptions → Except String (List ReplicationController))
    (listPods : String → ListOptions → Except String PodList)
    (rcs : List ReplicationController) (minReadySeconds : Int) (now : Time) (e : String) :
    (getPodList deployment.objectMeta.namespace_
        { labelSelector := SelectorFromSet deployment.spec.selector } = Except.error e →
      GetOldRCsFromLists deployment getPodList getRcList =
        (none, none, some ("error listing pods: " ++ e))) ∧
    (∀ podList,
      getPodList deployment.objectMeta.namespace_
        { labelSelector := SelectorFromSet deployment.spec.selector } = Except.ok podList →
      getRcList deployment.objectMeta.namespace_
        { labelSelector := SelectorFromSet deployment.spec.selector } = Except.error e →
      GetOldRCsFromLists deployment getPodList getRcList =
        (none, none, some ("error listing replication controllers: " ++ e))) ∧
    ((getPodsForRCs listPods rcs).2 = some e →
      GetAvailablePodsForRCs listPods rcs minReadySeconds now = (0, some e)) := by
  refine ⟨fun h => ?_, fun podList h1 h2 => ?_, fun h => ?_⟩
  · unfold GetOldRCsFromLists
    rw [h]
  · unfold GetOldRCsFromLists
    rw [h1, h2]
  · unfold GetAvailablePodsForRCs
    rcases hEq : getPodsForRCs listPods rcs with ⟨pods, err⟩
    rw [hEq] at h
    simp only at h
    rw [h]

/-- Witness for C6 at concrete failing callbacks. -/
theorem listing_failure_no_partial_result_witness :
    GetOldRCsFromLists exampleDeployment (fun _ _ => Except.error "boom")
        (fun _ _ => Except.ok [exampleOldRC]) =
      (none, none, some "error listing pods: boom") ∧
    GetOldRCsFromLists exampleDeployment (fun _ _ => Except.ok { items := [examplePod] })
        (fun _ _ => Except.error "boom") =
      (none, none, some "error listing replication controllers: boom") ∧
    GetAvailablePodsForRCs (fun _ _ => Except.error "boom") [exampleOldRC] 0 ⟨0⟩ =
      (0, some "error listing pods: boom") := by
  refine ⟨?_, ?_, ?_⟩
  · exact (listing_failure_no_partial_result exampleDeployment _
      (fun _ _ => Except.ok [exampleOldRC]) (fun _ _ => Except.ok { items := [] }) [] 0
      ⟨0⟩ "boom").1 rfl
  · exact (listing_failure_no_partial_result exampleDeployment _ _
      (fun _ _ => Except.ok { items := [] }) [] 0 ⟨0⟩ "boom").2.1 { items := [examplePod] }
      rfl rfl
  · exact (listing_failure_no_partial_result exampleDeployment
      (fun _ _ => Except.ok { items := [] }) (fun _ _ => Except.ok [])
      (fun _ _ => Except.error "boom") [exampleOldRC] 0 ⟨0⟩ "error listing pods: boom").2.2 rfl

/-- Claim C8: when no listed controller's template is deep-equal to the
desired fingerprinted template, `GetNewRCFromList` returns no controller and
no error. -/
theorem find_new_absent_not_error (deployment : Deployment)
    (getRcList : String → ListOptions → Except String (List ReplicationController))
    (rcList : List ReplicationController)
    (hlist : getRcList deployment.objectMeta.namespace_
        { labelSelector := SelectorFromSet deployment.spec.selector } = Except.ok rcList)
    (hnone : ∀ rc ∈ rcList, ¬ rc.spec.template = some (GetNewRCTemplate deployment)) :
    GetNewRCFromList deployment getRcList = Except.ok none := by
  have hfind : rcList.find?
      (fun rc => decide (rc.spec.template = some (GetNewRCTemplate deployment))) = none := by
    rw [List.find?_eq_none]
    intro rc hrc
    simp [hnone rc hrc]
  unfold GetNewRCFromList
  rw [hlist]
  show Except.ok (rcList.find?
      fun rc => decide (rc.spec.template = some (GetNewRCTemplate deployment))) = Except.ok none
  rw [hfind]

/-- Witness for C8: the concrete old controller does not match, so the new
controller is reported absent without error. -/
theorem find_new_absent_not_error_witness :
    GetNewRCFromList exampleDeployment (fun _ _ => Except.ok [exampleOldRC]) =
      Except.ok none := by
  exact find_new_absent_not_error exampleDeployment _ [exampleOldRC] rfl (by decide)

/-! ### Invariants of the classification maps -/

/-- Entries of the classification maps: keyed by the controller's own name,
drawn from the listed controllers, never template-equal to the desired
fingerprinted template. -/
def EntryOk (rcList : List ReplicationController) (newTpl : PodTemplateSpec)
    (kv : String × ReplicationController) : Prop :=
  kv.2.objectMeta.name = kv.1 ∧ kv.2 ∈ rcList ∧ ¬ kv.2.spec.template = some newTpl

def MapOk (rcList : List ReplicationController) (newTpl : PodTemplateSpec)
    (m : RCMap) : Prop :=
  ∀ kv ∈ m, EntryOk rcList newTpl kv

/-- The loop invariant of `GetOldRCsFromLists`: both maps are well-formed,
key-deduplicated, and the with-pods map's keys are among the all-old map's. -/
def Inv (rcList : List ReplicationController) (newTpl : PodTemplateSpec)
    (acc : RCMap × RCMap) : Prop :=
  MapOk rcList newTpl acc.1 ∧ MapOk rcList newTpl acc.2 ∧
    (keys acc.1).Nodup ∧ (keys acc.2).Nodup ∧
    ∀ k, k ∈ keys acc.1 → k ∈ keys acc.2

theorem mapOk_upsert {rcList : List ReplicationController} {newTpl : PodTemplateSpec}
    {m : RCMap} {rc : ReplicationController} (hOk : MapOk rcList newTpl m)
    (hrc : rc ∈ rcList) (htpl : ¬ rc.spec.template = some newTpl) :
    MapOk rcList newTpl (upsert rc.objectMeta.name rc m) := by
  intro kv hkv
  rcases mem_upsert hkv with h | h
  · subst h
    exact ⟨rfl, hrc, htpl⟩
  · exact hOk kv h

theorem processRC_inv {rcList : List ReplicationController} {newTpl : PodTemplateSpec}
    {podLabels : Labels} {acc : RCMap × RCMap} {rc : ReplicationController}
    (hrc : rc ∈ rcList) (hinv : Inv rcList newTpl acc) :
    Inv rcList newTpl (processRC newTpl podLabels acc rc) := by
  obtain ⟨hOk1, hOk2, hNd1, hNd2, hSub⟩ := hinv
  unfold processRC
  by_cases htpl : rc.spec.template = some newTpl
  · rw [if_pos htpl]
    exact ⟨hOk1, hOk2, hNd1, hNd2, hSub⟩
  · rw [if_neg htpl]
    cases hmatch : selMatches (SelectorFromSet rc.spec.selector) podLabels
    · simp only [hmatch, Bool.false_eq_true, if_false]
      refine ⟨hOk1, mapOk_upsert hOk2 hrc htpl, hNd1, nodup_keys_upsert _ _ hNd2, ?_⟩
      intro k hk
      exact mem_keys_upsert.2 (Or.inr (hSub k hk))
    · simp only [hmatch, if_true]
      refine ⟨mapOk_upsert hOk1 hrc htpl, mapOk_upsert hOk2 hrc htpl,
        nodup_keys_upsert _ _ hNd1, nodup_keys_upsert _ _ hNd2, ?_⟩
      intro k hk
      rcases mem_keys_upsert.1 hk with h | h
      · exact mem_keys_upsert.2 (Or.inl h)
      · exact mem_keys_upsert.2 (Or.inr (hSub k h))

theorem foldl_processRC_inv {rcList : List ReplicationController} {newTpl : PodTemplateSpec}
    {podLabels : Labels} :
    ∀ rcs : List ReplicationController, (∀ rc ∈ rcs, rc ∈ rcList) →
      ∀ acc : RCMap × RCMap, Inv rcList newTpl acc →
        Inv rcList newTpl (rcs.foldl (processRC newTpl podLabels) acc) := by
  intro rcs
  induction rcs with
  | nil =>
      intro _ acc h
      simpa using h
  | cons rc rest ih =>
      intro hmem acc h
      rw [List.foldl_cons]
      exact ih (fun x hx => hmem x (List.mem_cons_of_mem _ hx)) _
        (processRC_inv (hmem rc (List.mem_cons_self _ _)) h)

theorem classifyPods_inv {rcList : List ReplicationController} {newTpl : PodTemplateSpec} :
    ∀ (pods : List Pod) (acc : RCMap × RCMap), Inv rcList newTpl acc →
      Inv rcList newTpl (classifyPods newTpl rcList pods acc) := by
  intro pods
  induction pods with
  | nil =>
      intro acc h
      simpa [classifyPods] using h
  | cons pod rest ih =>
      intro acc h
      unfold classifyPods at ih ⊢
      rw [List.foldl_cons]
      exact ih _ (foldl_processRC_inv rcList (fun _ hx => hx) _ h)

theorem inv_nil (rcList : List ReplicationController) (newTpl : PodTemplateSpec) :
    Inv rcList newTpl ([], []) := by
  refine ⟨?_, ?_, ?_, ?_, ?_⟩ <;> simp [MapOk, keys]

theorem mapValues_names {rcList : List ReplicationController} {newTpl : PodTemplateSpec}
    {m : RCMap} (hOk : MapOk rcList newTpl m) :
    (mapValues m).map (fun rc => rc.objectMeta.name) = keys m := by
  unfold mapValues keys
  rw [List.map_map]
  exact List.map_congr_left fun kv hkv => (hOk kv hkv).1

/-- Successful runs of `GetOldRCsFromLists` are exactly the values of the two
classification maps over the listed pods and controllers. -/
theorem getOldRCs_ok_elim {deployment : Deployment}
    {getPodList : String → ListOptions → Except String PodList}
    {getRcList : String → ListOptions → Except String (List ReplicationController)}
    {req allr : List ReplicationController}
    (hres : GetOldRCsFromLists deployment getPodList getRcList = (some req, some allr, none)) :
    ∃ podList rcList,
      getPodList deployment.objectMeta.namespace_
        { labelSelector := SelectorFromSet deployment.spec.selector } = Except.ok podList ∧
      getRcList deployment.objectMeta.namespace_
        { labelSelector := SelectorFromSet deployment.spec.selector } = Except.ok rcList ∧
      req = mapValues (classifyPods (GetNewRCTemplate deployment) rcList
        podList.items ([], [])).1 ∧
      allr = mapValues (classifyPods (GetNewRCTemplate deployment) rcList
        podList.items ([], [])).2 := by
  unfold GetOldRCsFromLists at hres
  rcases hpl : getPodList deployment.objectMeta.namespace_
      { labelSelector := SelectorFromSet deployment.spec.selector } with e | podList
  · rw [hpl] at hres
    simp at hres
  · rw [hpl] at hres
    rcases hrl : getRcList deployment.objectMeta.namespace_
        { labelSelector := SelectorFromSet deployment.spec.selector } with e | rcList
    · rw [hrl] at hres
      simp at hres
    · rw [hrl] at hres
      simp only [Prod.mk.injEq, Option.some.injEq] at hres
      exact ⟨podList, rcList, rfl, rfl, hres.1.symm, hres.2.1.symm⟩

/-- Claim C5: on every successful run the classification is a partition
relative to the new controller — nothing in `old_all` (nor in
`old_with_pods`) is template-equal to the desired fingerprinted template, so
none of them can be the controller `GetNewRCFromList` would return — both
result sets are deduplicated by controller name, every name in
`old_with_pods` appears in `old_all`, and, whenever the listed controllers
carry distinct names (names are the identity key), `old_with_pods` is a
subset of `old_all`. -/
theorem classify_partition (deployment : Deployment)
    (getPodList : String → ListOptions → Except String PodList)
    (getRcList : String → ListOptions → Except String (List ReplicationController))
    (req allr : List ReplicationController)
    (hres : GetOldRCsFromLists deployment getPodList getRcList = (some req, some allr, none)) :
    (∀ rc ∈ allr, ¬ rc.spec.template = some (GetNewRCTemplate deployment)) ∧
    (∀ rc ∈ req, ¬ rc.spec.template = some (GetNewRCTemplate deployment)) ∧
    (allr.map fun rc => rc.objectMeta.name).Nodup ∧
    (req.map fun rc => rc.objectMeta.name).Nodup ∧
    (∀ rc ∈ req, ∃ rc' ∈ allr, rc'.objectMeta.name = rc.objectMeta.name) ∧
    (∀ rcList, getRcList deployment.objectMeta.namespace_
        { labelSelector := SelectorFromSet deployment.spec.selector } = Except.ok rcList →
      (rcList.map fun rc => rc.objectMeta.name).Nodup → ∀ rc ∈ req, rc ∈ allr) ∧
    (∀ rc ∈ allr, ∀ getRcList2 rc',
      GetNewRCFromList deployment getRcList2 = Except.ok (some rc') → rc ≠ rc') := by
  obtain ⟨podList, rcList, hpl, hrl, hreq, hallr⟩ := getOldRCs_ok_elim hres
  have hinv := @classifyPods_inv rcList (GetNewRCTemplate deployment)
    podList.items ([], []) (inv_nil rcList (GetNewRCTemplate deployment))
  obtain ⟨hOk1, hOk2, hNd1, hNd2, hSub⟩ := hinv
  subst hreq
  subst hallr
  have hmem2 : ∀ rc, rc ∈ mapValues (classifyPods (GetNewRCTemplate deployment) rcList
      podList.items ([], [])).2 →
      ∃ kv ∈ (classifyPods (GetNewRCTemplate deployment) rcList podList.items ([], [])).2,
        kv.2 = rc := by
    intro rc h
    obtain ⟨kv, hkv, hv⟩ := List.mem_map.1 h
    exact ⟨kv, hkv, hv⟩
  have hmem1 : ∀ rc, rc ∈ mapValues (classifyPods (GetNewRCTemplate deployment) rcList
      podList.items ([], [])).1 →
      ∃ kv ∈ (classifyPods (GetNewRCTemplate deployment) rcList podList.items ([], [])).1,
        kv.2 = rc := by
    intro rc h
    obtain ⟨kv, hkv, hv⟩ := List.mem_map.1 h
    exact ⟨kv, hkv, hv⟩
  have hTpl2 : ∀ rc ∈ mapValues (classifyPods (GetNewRCTemplate deployment) rcList
      podList.items ([], [])).2, ¬ rc.spec.template = some (GetNewRCTemplate deployment) := by
    intro rc h
    obtain ⟨kv, hkv, hv⟩ := hmem2 rc h
    exact hv ▸ (hOk2 kv hkv).2.2
  have hTpl1 : ∀ rc ∈ mapValues (classifyPods (GetNewRCTemplate deployment) rcList
      podList.items ([], [])).1, ¬ rc.spec.template = some (GetNewRCTemplate deployment) := by
    intro rc h
    obtain ⟨kv, hkv, hv⟩ := hmem1 rc h
    exact hv ▸ (hOk1 kv hkv).2.2
  refine ⟨hTpl2, hTpl1, ?_, ?_, ?_, ?_, ?_⟩
  · rw [mapValues_names hOk2]
    exact hNd2
  · rw [mapValues_names hOk1]
    exact hNd1
  · intro rc h
    obtain ⟨kv, hkv, hv⟩ := hmem1 rc h
    have hk2 := hSub kv.1 (mem_keys_of_mem hkv)
    obtain ⟨v', hv'⟩ := mem_keys_exists hk2
    refine ⟨v', List.mem_map.2 ⟨(kv.1, v'), hv', rfl⟩, ?_⟩
    have h1 := (hOk2 (kv.1, v') hv').1
    have h2 := (hOk1 kv hkv).1
    rw [h1, ← hv, h2]
  · intro rcList' hrl' hnodup rc h
    rw [hrl] at hrl'
    injection hrl' with hrl''
    subst hrl''
    obtain ⟨kv, hkv, hv⟩ := hmem1 rc h
    have hk2 := hSub kv.1 (mem_keys_of_mem hkv)
    obtain ⟨v', hv'⟩ := mem_keys_exists hk2
    have hE1 := hOk1 kv hkv
    have hE2 := hOk2 (kv.1, v') hv'
    have hname : rc.objectMeta.name = v'.objectMeta.name := by
      have h1 : kv.2.objectMeta.name = kv.1 := hE1.1
      have h2 : v'.objectMeta.name = kv.1 := hE2.1
      rw [← hv, h1, h2]
    have : rc = v' := List.inj_on_of_nodup_map hnodup (hv ▸ hE1.2.1) hE2.2.1 hname
    rw [this]
    exact List.mem_map.2 ⟨(kv.1, v'), hv', rfl⟩
  · intro rc h getRcList2 rc' hfound
    have hrcTpl := hTpl2 rc h
    unfold GetNewRCFromList at hfound
    rcases h2 : getRcList2 deployment.objectMeta.namespace_
        { labelSelector := SelectorFromSet deployment.spec.selector } with e | l2
    · rw [h2] at hfound
      simp at hfound
    · rw [h2] at hfound
      simp only [Except.ok.injEq] at hfound
      have hp := List.find?_some hfound
      have : rc'.spec.template = some (GetNewRCTemplate deployment) := of_decide_eq_true hp
      intro heq
      rw [heq] at hrcTpl
      exact hrcTpl this

/-- Witness for C5 at concrete listings: the old controller lands in both
result sets, is not template-equal to the fingerprinted template, and is in
`old_all` by the subset clause. -/
theorem classify_partition_witness :
    ¬ exampleOldRC.spec.template = some (GetNewRCTemplate exampleDeployment) ∧
    exampleOldRC ∈ [exampleOldRC] ∧
    ([exampleOldRC].map fun rc => rc.objectMeta.name).Nodup := by
  have h := classify_partition exampleDeployment
    (fun _ _ => Except.ok { items := [examplePod] })
    (fun _ _ => Except.ok [exampleOldRC, exampleNewRC])
    [exampleOldRC] [exampleOldRC] (by decide)
  refine ⟨h.1 exampleOldRC (by decide), ?_, h.2.2.1⟩
  exact h.2.2.2.2.2.1 [exampleOldRC, exampleNewRC] rfl (by decide) exampleOldRC (by decide)

/-! ### Frame: the classification operations only read their inputs -/

/-- A namespace's live state: the deployment and the listed controllers and
pods.  The injected listing callbacks read it and nothing writes it. -/
structure World where
  deployment : Deployment
  rcs : List ReplicationController
  pods : List Pod
deriving DecidableEq, Repr

/-- Server-side pod listing over a world: namespace-scoped and
selector-matched, always successful. -/
def listPodsOf (w : World) : String → ListOptions → Except String PodList :=
  fun ns options => Except.ok
    { items := w.pods.filter fun p =>
        decide (p.objectMeta.namespace_ = ns) &&
          selMatches options.labelSelector p.objectMeta.labels }

/-- Server-side controller listing over a world. -/
def listRCsOf (w : World) : String → ListOptions → Except String (List ReplicationController) :=
  fun ns options => Except.ok
    (w.rcs.filter fun rc =>
      decide (rc.objectMeta.namespace_ = ns) &&
        selMatches options.labelSelector rc.objectMeta.labels)

/-- `GetOldRCsFromLists` with the world state threaded explicitly: the source
takes the deployment by value and never assigns through the listed
controllers or pods, so the state component passes through. -/
def GetOldRCsFromListsW (w : World) :
    World ×
      (Option (List ReplicationController) × Option (List ReplicationController) ×
        Option String) :=
  (w, GetOldRCsFromLists w.deployment (listPodsOf w) (listRCsOf w))

/-- `GetNewRCFromList` with the world state threaded explicitly. -/
def GetNewRCFromListW (w : World) :
    World × Except String (Option ReplicationController) :=
  (w, GetNewRCFromList w.deployment (listRCsOf w))

/-- `GetNewRCTemplate` with the world state threaded explicitly. -/
def GetNewRCTemplateW (w : World) : World × PodTemplateSpec :=
  (w, GetNewRCTemplate w.deployment)

/-- Claim C9: classification, new-controller lookup and fingerprinting leave
the deployment and the listed controllers and pods unchanged: the threaded
state passes through all three operations, the fingerprinted template is
built on a cloned label map (every label other than the stamped unique key
reads back unchanged, and the pod spec is taken over verbatim), and every
controller the classifier returns is one of the listed controllers as
listed. -/
theorem classify_frame (w : World) :
    (GetOldRCsFromListsW w).1 = w ∧
    (GetNewRCFromListW w).1 = w ∧
    (GetNewRCTemplateW w).1 = w ∧
    (GetNewRCTemplateW w).2.spec = w.deployment.spec.template.spec ∧
    (∀ k, ¬ k = w.deployment.spec.uniqueLabelKey →
      lookupKey (GetNewRCTemplateW w).2.objectMeta.labels k =
        lookupKey w.deployment.spec.template.objectMeta.labels k) ∧
    (∀ req allr, (GetOldRCsFromListsW w).2 = (some req, some allr, none) →
      (∀ rc ∈ allr, rc ∈ w.rcs) ∧ ∀ rc ∈ req, rc ∈ w.rcs) := by
  refine ⟨rfl, rfl, rfl, rfl, ?_, ?_⟩
  · intro k hk
    show lookupKey (CloneAndAddLabel w.deployment.spec.template.objectMeta.labels
      w.deployment.spec.uniqueLabelKey (GetPodTemplateSpecHash
        { objectMeta := w.deployment.spec.template.objectMeta
          spec := w.deployment.spec.template.spec })) k =
      lookupKey w.deployment.spec.template.objectMeta.labels k
    unfold CloneAndAddLabel
    by_cases hkey : w.deployment.spec.uniqueLabelKey = ""
    · rw [if_pos hkey]
    · rw [if_neg hkey]
      exact lookupKey_upsert_ne hk _ _
  · intro req allr hres
    have hres' : GetOldRCsFromLists w.deployment (listPodsOf w) (listRCsOf w) =
        (some req, some allr, none) := hres
    obtain ⟨podList, rcList, hpl, hrl, hreq, hallr⟩ := getOldRCs_ok_elim hres'
    have hinv := @classifyPods_inv rcList (GetNewRCTemplate w.deployment)
      podList.items ([], []) (inv_nil rcList (GetNewRCTemplate w.deployment))
    obtain ⟨hOk1, hOk2, _, _, _⟩ := hinv
    have hsubRCs : ∀ rc ∈ rcList, rc ∈ w.rcs := by
      intro rc hrc
      have h' := hrl
      simp only [listRCsOf, Except.ok.injEq] at h'
      rw [← h'] at hrc
      exact (List.mem_filter.1 hrc).1
    subst hreq
    subst hallr
    constructor
    · intro rc h
      obtain ⟨kv, hkv, hv⟩ := List.mem_map.1 h
      exact hsubRCs rc (hv ▸ (hOk2 kv hkv).2.1)
    · intro rc h
      obtain ⟨kv, hkv, hv⟩ := List.mem_map.1 h
      exact hsubRCs rc (hv ▸ (hOk1 kv hkv).2.1)

/-- A concrete world for the frame witness. -/
def exampleWorld : World :=
  ⟨exampleDeployment, [exampleOldRC, exampleNewRC], [examplePod]⟩

/-- Witness for C9 at the concrete world: the state passes through, the
`app` label of the template reads back unchanged, and the classified old
controller is one of the listed controllers. -/
theorem classify_frame_witness :
    (GetOldRCsFromListsW exampleWorld).1 = exampleWorld ∧
    lookupKey (GetNewRCTemplateW exampleWorld).2.objectMeta.labels "app" =
      lookupKey exampleWorld.deployment.spec.template.objectMeta.labels "app" ∧
    exampleOldRC ∈ exampleWorld.rcs := by
  have h := classify_frame exampleWorld
  refine ⟨h.1, h.2.2.2.2.1 "app" (by decide), ?_⟩
  exact (h.2.2.2.2.2 [exampleOldRC] [exampleOldRC] (by decide)).1 exampleOldRC (by decide)

end K8s
